import Mathlib

/-!
Verification development for the FormHydrator resilient fetch client
(Book01_Headless_WordPress/Chapter04/form_hydrator_class_vanilla.js).

The JavaScript source is shallowly embedded below.  Pure computations
(header composition, backoff arithmetic, cache-entry encoding, breaker
transitions, in-flight keys) become Lean functions translated line by
line from the source.  The asynchronous parts are embedded as explicit
state passing over event streams:

* a network attempt is driven by a `FetchEvent` describing what the
  fetch call did (a response with a status/ETag/Retry-After/body, an
  abort of the AbortController, or a network-level rejection);
* the retry loop `_getWithRetry` consumes one event per attempt;
* `_getWithCacheAndRetry` threads the cache state and the circuit
  breaker state through one logical call;
* the in-flight coalescing registry is a step relation over
  arrival/settlement events, mirroring the Map has/set/delete calls.

JavaScript numbers carrying millisecond times appear as integers, and
numbers fed through `Math.random`/`Math.floor` as rationals with an
explicit integer floor.  JSON bodies are abstract (`Nat`), with `Option`
encoding the possibility of `undefined`.
-/

namespace Hydrator

/-- The structured error of the source (`FormHydratorError` plus the raw
fields the retry loop inspects: `name`, `code`, `status`,
`retryAfterMs`). -/
structure JsError where
  name : String
  code : String
  status : Option Nat
  retryAfterMs : Option ℚ
deriving DecidableEq

/-- Result of one successful `_getOnce`: `{data, etag, from304}`.
`data = none` models the source returning `data: undefined` on 304. -/
structure FetchResult where
  data : Option Nat
  etag : Option String
  from304 : Bool
deriving DecidableEq

/-- Retry policy as normalized by the `FormHydrator` constructor. -/
structure RetryPolicy where
  maxRetries : Nat
  backoffBaseMs : ℚ
  backoffCapMs : ℚ
  jitter : Bool
  retryOnHTTP : List Nat
deriving DecidableEq

/-- Constructor defaults: `maxRetries ?? 2`, `backoffBaseMs ?? 250`,
`backoffCapMs ?? 4000`, `jitter ?? true`,
`retryOnHTTP ?? [429, 500, 502, 503, 504]`. -/
def defaultRetry : RetryPolicy :=
  { maxRetries := 2, backoffBaseMs := 250, backoffCapMs := 4000,
    jitter := true, retryOnHTTP := [429, 500, 502, 503, 504] }

/-- The retriability test of `_getWithRetry`:
`isNetwork || isAbort || retriableHTTP`, where
`isNetwork = (err.code === 'ENETWORK')`,
`isAbort = (err.name === 'AbortError')` and
`retriableHTTP = typeof status === 'number' && retryOnHTTP.includes(status)`. -/
def isRetriable (retryOnHTTP : List Nat) (e : JsError) : Bool :=
  (e.code == "ENETWORK") || (e.name == "AbortError") ||
    (match e.status with
     | some s => retryOnHTTP.contains s
     | none => false)

/-- `_computeBackoffDelay(attempt, base, cap, jitter)` with the call to
`Math.random()` made explicit as the rational argument `r`:
`exp = Math.min(cap, base * 2**(attempt-1))`; without jitter return
`exp`; with jitter `rand = r * exp * 0.5` and the result is
`Math.floor(exp / 2 + rand)`. -/
def computeBackoffDelay (attempt : Nat) (base cap : ℚ) (jitter : Bool)
    (r : ℚ) : ℚ :=
  let e := min cap (base * 2 ^ (attempt - 1))
  if jitter = false then e
  else
    let rand := r * e * (1 / 2)
    ((Int.floor (e / 2 + rand) : ℤ) : ℚ)

/-- The parsed `Retry-After` response header of `_getOnce`: either a
finite numeric value (seconds) or an HTTP date (epoch milliseconds). -/
inductive RetryAfterHeader where
  | secs (n : ℚ)
  | httpDate (w : ℤ)
deriving DecidableEq

/-- `_getOnce`’s conversion of `Retry-After`: a finite number is
seconds, multiplied by 1000; a parsable date gives
`Math.max(0, when - Date.now())`. -/
def retryAfterMsOfHeader (now : ℤ) : Option RetryAfterHeader → Option ℚ
  | none => none
  | some (.secs n) => some (n * 1000)
  | some (.httpDate w) => some (max 0 ((w - now : ℤ) : ℚ))

deriving instance DecidableEq for Except

/-- One full run of the `while (true)` loop of `_getWithRetry`:
result, number of network attempts made, and the sleep delays between
attempts. -/
structure RetryTrace where
  result : Except JsError FetchResult
  attempts : Nat
  delays : List ℚ
deriving DecidableEq

/-- The body of `_getWithRetry`, structurally recursive on `fuel`.
`out i` is the outcome of the `i`-th call to `_getOnce` (0-based,
matching the source's `attempt` counter before it is incremented);
`rnd i` is the `Math.random()` draw used for the delay after failure
number `i`.  The source loop terminates because the guard
`attempt > maxRetries` eventually throws; here `fuel` is exactly the
number of retries still allowed (`maxRetries - attempt`), so the
`fuel = 0` fallback inside the retriable branch is unreachable from
`getWithRetryFrom` (the guard `attempt + 1 > maxRetries` fires first). -/
def retryLoop (pol : RetryPolicy) (rnd : Nat → ℚ)
    (out : Nat → Except JsError FetchResult) :
    Nat → Nat → RetryTrace
  | attempt, fuel =>
    match out attempt with
    | .ok r => { result := .ok r, attempts := 1, delays := [] }
    | .error e =>
      if isRetriable pol.retryOnHTTP e = false ∨
          attempt + 1 > pol.maxRetries then
        { result := .error e, attempts := 1, delays := [] }
      else
        match fuel with
        | 0 => { result := .error e, attempts := 1, delays := [] }
        | fuel' + 1 =>
          let d := match e.retryAfterMs with
            | some ra => ra
            | none =>
              computeBackoffDelay (attempt + 1) pol.backoffBaseMs
                pol.backoffCapMs pol.jitter (rnd (attempt + 1))
          let rest := retryLoop pol rnd out (attempt + 1) fuel'
          { result := rest.result, attempts := rest.attempts + 1,
            delays := d :: rest.delays }

/-- `_getWithRetry` starting from a given value of the `attempt`
counter (the source always starts at 0, see `getWithRetry`). -/
def getWithRetryFrom (pol : RetryPolicy) (rnd : Nat → ℚ)
    (out : Nat → Except JsError FetchResult) (attempt : Nat) :
    RetryTrace :=
  retryLoop pol rnd out attempt (pol.maxRetries - attempt)

/-- `_getWithRetry(path, opts)` as a whole: the loop entered with
`attempt = 0`. -/
def getWithRetry (pol : RetryPolicy) (rnd : Nat → ℚ)
    (out : Nat → Except JsError FetchResult) : RetryTrace :=
  getWithRetryFrom pol rnd out 0

/-- A convenient finite outcome script: outcome `i` is taken from the
list, and a list shorter than the number of attempts defaults to a
success (never reached in the theorems below). -/
def outSeq (l : List (Except JsError FetchResult)) :
    Nat → Except JsError FetchResult :=
  fun i => (l.get? i).getD (.ok { data := some 0, etag := none, from304 := false })

/-- Instance-level configuration after the constructor's normalization
(`baseUrl` already has its trailing slash stripped; TTL and breaker
configuration are threaded separately). -/
structure Config where
  baseUrl : String
  headers : List (String × String)
  timeoutMs : ℤ
  wpNonce : Option String
  retry : RetryPolicy

/-- Constructor defaults: `baseUrl = ''`, `headers = {}`,
`timeoutMs = 10000`, no nonce, default retry policy. -/
def defaultConfig : Config :=
  { baseUrl := "", headers := [], timeoutMs := 10000, wpNonce := none,
    retry := defaultRetry }

/-- Per-call options (`CallOptions`).  `headers = none` models an
absent `headers` option; `wpNonce = some s` models passing a string
(`typeof wpNonce === 'string'`), `none` models leaving it undefined. -/
structure CallOpts where
  headers : Option (List (String × String))
  timeoutMs : Option ℤ
  cacheBypass : Bool
  ttlMs : Option ℤ
  wpNonce : Option String

/-- A call with no options set (`opts = {}` in the source:
`cacheBypass` defaults to `false`). -/
def defaultOpts : CallOpts :=
  { headers := none, timeoutMs := none, cacheBypass := false,
    ttlMs := none, wpNonce := none }

/-- JavaScript string truthiness for optional header values:
`undefined` and the empty string are falsy. -/
def truthy : Option String → Bool
  | none => false
  | some s => !(s == "")

/-- Property read `obj[k]` on a headers object modelled as a literal
whose later duplicate keys override earlier ones (object spread
semantics). -/
def objGet (hs : List (String × String)) (k : String) : Option String :=
  hs.reverse.lookup k

/-- `_getOnce`'s nonce selection:
`typeof wpNonce === 'string' ? wpNonce : this._wpNonce`. -/
def nonceOf (cfg : Config) (o : CallOpts) : Option String :=
  match o.wpNonce with
  | some s => some s
  | none => cfg.wpNonce

/-- The effective request headers composed by `_getOnce`:
`{'Accept': 'application/json', ...this._headers, ...(callHeaders||{})}`,
then `headers['X-WP-Nonce'] = nonce` if the nonce is truthy, then
`headers['If-None-Match'] = ifNoneMatch` if that is truthy. -/
def composeHeaders (cfg : Config) (o : CallOpts) (inm : Option String) :
    String → Option String :=
  fun k =>
    if truthy inm && (k == "If-None-Match") then inm
    else if truthy (nonceOf cfg o) && (k == "X-WP-Nonce") then nonceOf cfg o
    else
      match objGet (o.headers.getD []) k with
      | some v => some v
      | none =>
        match objGet cfg.headers k with
        | some v => some v
        | none => if k == "Accept" then some "application/json" else none

/-- What the single `fetch` call inside `_getOnce` did: delivered a
response, rejected because the AbortController fired (either through
the internal deadline timer or through the caller's signal — the flag
records which, the source cannot observe it), or rejected with a
network-level error that carries no HTTP status. -/
inductive FetchEvent where
  | response (status : Nat) (etag : Option String)
      (retryAfter : Option RetryAfterHeader) (body : Nat)
  | abortFired (byCaller : Bool)
  | netError
deriving DecidableEq

/-- The error `_getOnce` throws when the fetch rejects with an
`AbortError`: a `FormHydratorError` with code `ETIMEDOUT` whose `name`
is overwritten back to `AbortError`. -/
def abortError : JsError :=
  { name := "AbortError", code := "ETIMEDOUT", status := none,
    retryAfterMs := none }

/-- The `ENETWORK` error `_getOnce` throws when the fetch rejects with
an error that has no numeric `status`. -/
def networkError : JsError :=
  { name := "FormHydratorError", code := "ENETWORK", status := none,
    retryAfterMs := none }

/-- The `EHTTP_<status>` error `_getOnce` throws on a non-ok response,
with `retryAfterMs` parsed from the `Retry-After` header. -/
def httpError (now : ℤ) (status : Nat) (ra : Option RetryAfterHeader) :
    JsError :=
  { name := "FormHydratorError", code := "EHTTP_" ++ toString status,
    status := some status, retryAfterMs := retryAfterMsOfHeader now ra }

/-- `resp.ok`: status in the range 200–299. -/
def respOk (status : Nat) : Bool := 200 ≤ status && status < 300

/-- One execution of `_getOnce`: the effective headers it sends and
the outcome it returns/throws, given what the fetch did.
Order follows the source: a 304 is checked before `resp.ok`;
`data` is `undefined` on 304 with `etag` echoing `ifNoneMatch`. -/
def getOnce (cfg : Config) (o : CallOpts) (inm : Option String)
    (now : ℤ) (ev : FetchEvent) :
    (String → Option String) × Except JsError FetchResult :=
  let hdrs := composeHeaders cfg o inm
  let res : Except JsError FetchResult :=
    match ev with
    | .abortFired _ => .error abortError
    | .netError => .error networkError
    | .response status etag ra body =>
      if status == 304 then
        .ok { data := none, etag := inm, from304 := true }
      else if respOk status = false then .error (httpError now status ra)
      else .ok { data := some body, etag := etag, from304 := false }
  (hdrs, res)

/-- Run of `_getWithRetry` over `_getOnce`: one fetch event per
attempt.  Each attempt re-composes the same headers from the same
options, so the sent requests are `attempts` copies of one header
map. -/
structure RunTrace where
  result : Except JsError FetchResult
  requests : List (String → Option String)
  delays : List ℚ

/-- The retry loop applied to a stream of fetch events, recording the
headers of every request actually issued. -/
def runRetry (cfg : Config) (o : CallOpts) (inm : Option String)
    (now : ℤ) (evs : Nat → FetchEvent) (rnd : Nat → ℚ) : RunTrace :=
  let t := getWithRetry cfg.retry rnd
    (fun i => (getOnce cfg o inm now (evs i)).2)
  { result := t.result,
    requests := List.replicate t.attempts (composeHeaders cfg o inm),
    delays := t.delays }

/-- Insertion of a string into a sorted list (ascending), used to model
JavaScript `Array.prototype.sort()` on header keys. -/
def insertSorted (x : String) : List String → List String
  | [] => [x]
  | y :: ys => if x ≤ y then x :: y :: ys else y :: insertSorted x ys

/-- `Object.keys(headers).sort()`. -/
def sortStrings : List String → List String
  | [] => []
  | x :: xs => insertSorted x (sortStrings xs)

/-- The serialized header portion of `_inflightKey`:
`headers ? Object.keys(headers).sort().map(k => k + ':' + headers[k]).join('|') : ''`. -/
def inflightHeaderString : Option (List (String × String)) → String
  | none => ""
  | some hs =>
    String.intercalate "|"
      ((sortStrings (hs.map Prod.fst)).map
        (fun k => k ++ ":" ++ ((objGet hs k).getD "undefined")))

/-- `_inflightKey(path, headers)`:
the cache key (`baseUrl + path`) followed by `::` and the serialized
headers. -/
def inflightKey (cfg : Config) (path : String)
    (headers : Option (List (String × String))) : String :=
  cfg.baseUrl ++ path ++ "::" ++ inflightHeaderString headers

/-- The coalescing key actually used by `_getWithCacheAndRetry`:
`this._inflightKey(path, opts.headers)` — only the `headers` per-call
option participates. -/
def inflightKeyOf (cfg : Config) (path : String) (o : CallOpts) : String :=
  inflightKey cfg path o.headers

/-- A value as stored in the cache by `_writeCacheEntry`: either the
ETag-aware wrapper `{__etag, __body}` or a bare body ("legacy entry").
The body is `Option Nat` because the source may store `undefined`. -/
inductive CacheVal where
  | legacy (body : Option Nat)
  | tagged (etag : String) (body : Option Nat)
deriving DecidableEq

/-- `_readCacheEntry`: `undefined` reads as a miss; a `{__etag,__body}`
object splits into body and etag; anything else is a legacy body with
no etag. -/
def readCacheEntry : Option CacheVal → Option Nat × Option String
  | none => (none, none)
  | some (.legacy b) => (b, none)
  | some (.tagged e b) => (b, some e)

/-- `_writeCacheEntry`: wrap with the etag only when the etag is truthy
(`if (etag)`), otherwise store the bare body. -/
def writeVal (body : Option Nat) : Option String → CacheVal
  | some e => if e == "" then .legacy body else .tagged e body
  | none => .legacy body

/-- The pluggable cache contract (`CacheLike`), with the possibility
that `get` or `set` throws (the source wraps both calls in
`try`/`catch`).  `now` stands for the `Date.now()` the implementation
may consult. -/
structure CacheLike (σ : Type) where
  get : σ → ℤ → String → Except Unit (Option CacheVal × σ)
  set : σ → ℤ → String → CacheVal → ℤ → Except Unit σ

/-- Backing store of `SimpleTTLCache`: key ↦ (expires, value), with
`expires = 0` meaning "never". -/
abbrev TTLStore := List (String × ℤ × CacheVal)

/-- `SimpleTTLCache.delete`. -/
def ttlDelete (s : TTLStore) (k : String) : TTLStore :=
  s.filter (fun p => !(p.1 == k))

/-- `SimpleTTLCache.set(key, value, ttlMs)`:
`expires = ttlMs > 0 ? Date.now() + ttlMs : 0`, then `Map.set`
(modelled as prepending after removing any previous binding). -/
def ttlSet (s : TTLStore) (now : ℤ) (k : String) (v : CacheVal)
    (ttlMs : ℤ) : TTLStore :=
  let expires := if ttlMs > 0 then now + ttlMs else 0
  (k, expires, v) :: ttlDelete s k

/-- `SimpleTTLCache.get(key)`: a hit whose `expires` is nonzero and in
the past is deleted and reported as a miss; otherwise the stored value
is returned. -/
def ttlGet (s : TTLStore) (now : ℤ) (k : String) :
    Option CacheVal × TTLStore :=
  match s.lookup k with
  | none => (none, s)
  | some (exp, v) =>
    if exp ≠ 0 ∧ now > exp then (none, ttlDelete s k) else (some v, s)

/-- The default in-memory cache as a `CacheLike` (its operations never
throw). -/
def simpleTTLCache : CacheLike TTLStore :=
  { get := fun s now k => .ok (ttlGet s now k),
    set := fun s now k v ttl => .ok (ttlSet s now k v ttl) }

/-- Per-key breaker record: `{fails, openedAt}`. -/
structure BreakerEntry where
  fails : Nat
  openedAt : Option ℤ
deriving DecidableEq

/-- The `CircuitBreaker` object: threshold, cool-off window, and the
per-key state map. -/
structure Breaker where
  threshold : Nat
  coolOffMs : ℤ
  state : List (String × BreakerEntry)

/-- The constructor `new CircuitBreaker(opts)`:
`threshold = opts.threshold ?? 5`, `coolOffMs = opts.coolOffMs ?? 15000`,
empty state map. -/
def mkBreaker (threshold? : Option Nat) (coolOff? : Option ℤ) : Breaker :=
  { threshold := threshold?.getD 5, coolOffMs := coolOff?.getD 15000,
    state := [] }

/-- `Map.set` on the breaker's state map. -/
def bset (k : String) (v : BreakerEntry) (b : Breaker) : Breaker :=
  { b with state := (k, v) :: b.state.filter (fun p => !(p.1 == k)) }

/-- `CircuitBreaker._entry`: the stored record or `{fails:0}`. -/
def bentry (b : Breaker) (k : String) : BreakerEntry :=
  (b.state.lookup k).getD { fails := 0, openedAt := none }

/-- `CircuitBreaker.canRequest(k)` at time `now`: closed entries pass;
an open entry still inside the cool-off window refuses; once the window
has elapsed the entry is reset (half-open probe) and the call passes.
Returns the decision together with the possibly updated breaker. -/
def canRequest (now : ℤ) (k : String) (b : Breaker) : Bool × Breaker :=
  match (bentry b k).openedAt with
  | none => (true, b)
  | some t =>
    if now - t < b.coolOffMs then (false, b)
    else (true, bset k { fails := 0, openedAt := none } b)

/-- `CircuitBreaker.recordSuccess(k)`. -/
def recordSuccess (k : String) (b : Breaker) : Breaker :=
  bset k { fails := 0, openedAt := none } b

/-- `CircuitBreaker.recordFailure(k)` at time `now`: increment the
consecutive-failure count; at or above the threshold stamp
`openedAt = now`, otherwise keep the previous `openedAt`. -/
def recordFailure (now : ℤ) (k : String) (b : Breaker) : Breaker :=
  let e := bentry b k
  let fails := e.fails + 1
  if b.threshold ≤ fails then bset k { fails := fails, openedAt := some now } b
  else bset k { fails := fails, openedAt := e.openedAt } b

/-- A sequence of terminal failures recorded at the given times. -/
def recordFailuresAt (k : String) (ts : List ℤ) (b : Breaker) : Breaker :=
  ts.foldl (fun b t => recordFailure t k b) b

/-- The `ECIRCUIT_OPEN` error thrown by `_getWithCacheAndRetry` when
the breaker refuses the key. -/
def circuitOpenError : JsError :=
  { name := "FormHydratorError", code := "ECIRCUIT_OPEN", status := none,
    retryAfterMs := none }

/-- Observable outcome of one logical call to
`_getWithCacheAndRetry`: the settled result (the JSON payload or the
thrown error), the headers of every network request issued, and the
final cache and breaker states. -/
structure CallOut (σ : Type) where
  result : Except JsError (Option Nat)
  requests : List (String → Option String)
  cacheSt : σ
  breaker : Breaker

/-- `_getWithCacheAndRetry(path, routeTTL, opts)` for a single caller
(the in-flight registry is empty on entry and emptied again by the
`finally`, so it is the identity on a solo call; concurrent callers
are modelled by the coalescer step relation below).  Steps, in source
order: effective TTL, cache key, breaker gate (throw `ECIRCUIT_OPEN`),
ETag-aware cache read with `catch` (a throwing cache reads as a miss),
the retry loop with the cached ETag, 304 body reuse, write-through
with `catch` (a throwing cache write is a no-op), and the terminal
`recordSuccess`/`recordFailure`. -/
def getWithCacheAndRetry {σ : Type} (C : CacheLike σ) (cfg : Config)
    (path : String) (routeTTL : ℤ) (o : CallOpts) (now : ℤ)
    (evs : Nat → FetchEvent) (rnd : Nat → ℚ) (st : σ) (br : Breaker) :
    CallOut σ :=
  let effTTL := o.ttlMs.getD routeTTL
  let key := cfg.baseUrl ++ path
  match canRequest now key br with
  | (false, br1) =>
    { result := .error circuitOpenError, requests := [], cacheSt := st,
      breaker := br1 }
  | (true, br1) =>
    let read : Option Nat × Option String × σ :=
      if o.cacheBypass then (none, none, st)
      else
        match C.get st now key with
        | .error _ => (none, none, st)
        | .ok (ent, st') =>
          let r := readCacheEntry ent
          (r.1, r.2, st')
    let cachedBody := read.1
    let cachedEtag := read.2.1
    let st1 := read.2.2
    let rt := runRetry cfg o cachedEtag now evs rnd
    match rt.result with
    | .error e =>
      { result := .error e, requests := rt.requests, cacheSt := st1,
        breaker := recordFailure now key br1 }
    | .ok fr =>
      let payload : Option Nat :=
        if fr.from304 then
          match cachedBody with
          | some b => some b
          | none => fr.data
        else fr.data
      let st2 :=
        if o.cacheBypass then st1
        else
          match C.set st1 now key (writeVal payload fr.etag) effTTL with
          | .error _ => st1
          | .ok st' => st'
      { result := .ok payload, requests := rt.requests, cacheSt := st2,
        breaker := recordSuccess key br1 }

/-- Events observable on the in-flight registry
(`this._inflight`, lines 373–391): a caller reaching the coalescing
check with its key, and a shared operation settling (the `finally`
block runs whether the promise fulfilled, `ok = true`, or rejected,
`ok = false`). -/
inductive CoEvent where
  | arrive (caller : Nat) (key : String)
  | settle (key : String) (ok : Bool)
deriving DecidableEq

/-- State of the coalescing registry: the in-flight map
(key ↦ operation id), a counter minting fresh operation ids, the
accumulated caller ↦ operation assignment, and the list of operations
that actually started a network request (each fresh registration
invokes the factory exactly once). -/
structure CoState where
  inflight : List (String × Nat)
  nextOp : Nat
  assigned : List (Nat × Nat)
  started : List Nat

/-- The state before any call: empty registry. -/
def coInit : CoState :=
  { inflight := [], nextOp := 0, assigned := [], started := [] }

/-- One cooperative step of the registry.
`arrive`: `if (this._inflight.has(key)) return this._inflight.get(key)`
— the caller joins the pending operation and nothing else changes;
otherwise the operation is created, registered
(`this._inflight.set(key, p)`) and its network request starts.
`settle`: `finally { this._inflight.delete(key) }` — removal happens
for success and failure alike (the `ok` flag is ignored). -/
def coStep (s : CoState) : CoEvent → CoState
  | .arrive c k =>
    match s.inflight.lookup k with
    | some op => { s with assigned := (c, op) :: s.assigned }
    | none =>
      { inflight := (k, s.nextOp) :: s.inflight, nextOp := s.nextOp + 1,
        assigned := (c, s.nextOp) :: s.assigned,
        started := s.nextOp :: s.started }
  | .settle k _ =>
    { s with inflight := s.inflight.filter (fun p => !(p.1 == k)) }

/-- A whole interleaving of arrivals and settlements. -/
def coRun (evs : List CoEvent) : CoState :=
  evs.foldl coStep coInit

/-- Number of in-flight operations registered under key `k`. -/
def keyCount (k : String) (s : CoState) : Nat :=
  s.inflight.countP (fun p => p.1 == k)

/-- The result a caller observes: the settled value of the operation it
was assigned to (all callers of one operation share one value). -/
def resultOf (results : Nat → Nat) (s : CoState) (c : Nat) : Option Nat :=
  (s.assigned.lookup c).map results

/-- A cache whose `get` and `set` always throw, as allowed by the
pluggable cache contract. -/
def throwingCache : CacheLike Unit :=
  { get := fun _ _ _ => .error (), set := fun _ _ _ _ _ => .error () }

/-! ### Association-list helpers -/

theorem lookup_filter_ne {α : Type} (k q : String) (l : List (String × α))
    (h : k ≠ q) :
    (l.filter (fun p => !(p.1 == q))).lookup k = l.lookup k := by
  induction l with
  | nil => rfl
  | cons p l ih =>
    by_cases hpq : p.1 = q
    · have : (p.1 == q) = true := beq_iff_eq.mpr hpq
      have hk : (k == p.1) = false := by
        refine beq_eq_false_iff_ne.mpr ?_
        simpa [hpq] using h
      simp [List.filter_cons, this, List.lookup, hk, ih]
    · have : (p.1 == q) = false := beq_eq_false_iff_ne.mpr hpq
      simp [List.filter_cons, this, List.lookup, ih]

theorem lookup_filter_self {α : Type} (k : String) (l : List (String × α)) :
    (l.filter (fun p => !(p.1 == k))).lookup k = none := by
  induction l with
  | nil => rfl
  | cons p l ih =>
    by_cases hpk : p.1 = k
    · have : (p.1 == k) = true := beq_iff_eq.mpr hpk
      simp [List.filter_cons, this, ih]
    · have h1 : (p.1 == k) = false := beq_eq_false_iff_ne.mpr hpk
      have h2 : (k == p.1) = false :=
        beq_eq_false_iff_ne.mpr (fun hc => hpk hc.symm)
      simp [List.filter_cons, h1, List.lookup, h2, ih]

theorem lookup_ttlSet_self (s : TTLStore) (now : ℤ) (k : String)
    (v : CacheVal) (ttl : ℤ) :
    (ttlSet s now k v ttl).lookup k =
      some (if ttl > 0 then now + ttl else 0, v) := by
  simp [ttlSet, List.lookup]

theorem bentry_bset_self (k : String) (v : BreakerEntry) (b : Breaker) :
    bentry (bset k v b) k = v := by
  simp [bentry, bset, List.lookup]

/-! ### Retry-loop helpers -/

theorem retryLoop_attempts_le (pol : RetryPolicy) (rnd : Nat → ℚ)
    (out : Nat → Except JsError FetchResult) :
    ∀ (fuel attempt : Nat),
      (retryLoop pol rnd out attempt fuel).attempts ≤ fuel + 1 := by
  intro fuel
  induction fuel with
  | zero =>
    intro attempt
    rw [retryLoop]
    split
    · simp
    · split
      · simp
      · simp
  | succ n ih =>
    intro attempt
    rw [retryLoop]
    split
    · simp
    · split
      · simp
      · simpa using Nat.succ_le_succ (ih (attempt + 1))

theorem retryLoop_attempts_pos (pol : RetryPolicy) (rnd : Nat → ℚ)
    (out : Nat → Except JsError FetchResult) (fuel attempt : Nat) :
    1 ≤ (retryLoop pol rnd out attempt fuel).attempts := by
  rw [retryLoop]
  split
  · simp
  · split
    · simp
    · split <;> simp

theorem retryLoop_all_error (pol : RetryPolicy) (rnd : Nat → ℚ)
    (e : JsError) (he : isRetriable pol.retryOnHTTP e = true) :
    ∀ (fuel attempt : Nat), attempt + fuel = pol.maxRetries →
      (retryLoop pol rnd (fun _ => Except.error e) attempt fuel).result =
          Except.error e ∧
      (retryLoop pol rnd (fun _ => Except.error e) attempt fuel).attempts =
          fuel + 1 := by
  intro fuel
  induction fuel with
  | zero =>
    intro attempt h
    rw [retryLoop]
    have hc : isRetriable pol.retryOnHTTP e = false ∨
        attempt + 1 > pol.maxRetries := Or.inr (by omega)
    simp [if_pos hc]
  | succ n ih =>
    intro attempt h
    rw [retryLoop]
    have hc : ¬(isRetriable pol.retryOnHTTP e = false ∨
        attempt + 1 > pol.maxRetries) := by
      rintro (h1 | h2)
      · simp [he] at h1
      · omega
    rcases ih (attempt + 1) (by omega) with ⟨ih1, ih2⟩
    simp [if_neg hc, ih1, ih2]

/-! ### Claim C10 -/

/-- C10: for the default in-memory cache `SimpleTTLCache`,
`set(key, value, ttlMs)` with any `ttlMs ≤ 0` — including negative
values, as may reach it via a negative per-call `ttlMs` override —
stores the never-expires sentinel `expires = 0`; every later
`get(key)`, at any later time, returns the stored value (and does not
purge the entry), until the entry is deleted or overwritten.  A
non-positive TTL is not treated as already expired. -/
theorem c10_nonpositive_ttl_never_expires (s : TTLStore) (now : ℤ)
    (k : String) (v : CacheVal) (ttl : ℤ) (h : ttl ≤ 0) :
    (ttlSet s now k v ttl).lookup k = some (0, v) ∧
    (∀ now2 : ℤ,
      ttlGet (ttlSet s now k v ttl) now2 k =
        (some v, ttlSet s now k v ttl)) ∧
    (∀ now2 : ℤ,
      (ttlGet (ttlDelete (ttlSet s now k v ttl) k) now2 k).1 = none) ∧
    (∀ (now2 : ℤ) (v2 : CacheVal) (ttl2 : ℤ),
      (ttlSet (ttlSet s now k v ttl) now2 k v2 ttl2).lookup k =
        some (if ttl2 > 0 then now2 + ttl2 else 0, v2)) := by
  have httl : ¬(ttl > 0) := by omega
  refine ⟨?_, ?_, ?_, ?_⟩
  · simp [lookup_ttlSet_self, httl]
  · intro now2
    simp [ttlGet, lookup_ttlSet_self, httl]
  · intro now2
    simp [ttlGet, ttlDelete, lookup_filter_self]
  · intro now2 v2 ttl2
    simp [lookup_ttlSet_self]

/-- Witness for C10 at a concrete negative TTL. -/
theorem c10_witness :
    (-(5:ℤ) ≤ 0) ∧
    ttlGet (ttlSet [] 100 "k" (CacheVal.legacy (some 3)) (-5)) 99999 "k" =
      (some (CacheVal.legacy (some 3)),
       ttlSet [] 100 "k" (CacheVal.legacy (some 3)) (-5)) :=
  ⟨by norm_num,
   (c10_nonpositive_ttl_never_expires [] 100 "k" (CacheVal.legacy (some 3))
      (-5) (by norm_num)).2.1 99999⟩

/-! ### Claim C6 -/

/-- C6: a failure is retried by the retry engine if and only if it is a
network-level failure (`code = 'ENETWORK'`, no HTTP status), an
abort/timeout (`name = 'AbortError'`), or an HTTP error whose status
lies in the configured retriable set, which defaults to
429, 500, 502, 503, 504; a non-retriable error is surfaced immediately
with exactly one attempt and zero retries (e.g. HTTP 404), while an
HTTP 503 is retried per policy. -/
theorem c6_retriable_classification :
    (∀ e : JsError,
      isRetriable defaultRetry.retryOnHTTP e = true ↔
        (e.code = "ENETWORK" ∨ e.name = "AbortError" ∨
          ∃ s, e.status = some s ∧ s ∈ [429, 500, 502, 503, 504])) ∧
    defaultRetry.retryOnHTTP = [429, 500, 502, 503, 504] ∧
    (∀ (pol : RetryPolicy) (rnd : Nat → ℚ)
        (out : Nat → Except JsError FetchResult) (e : JsError),
      out 0 = .error e → isRetriable pol.retryOnHTTP e = false →
      getWithRetry pol rnd out =
        { result := .error e, attempts := 1, delays := [] }) ∧
    ((getWithRetry defaultRetry (fun _ => 0)
        (fun _ => (getOnce defaultConfig defaultOpts none 0
          (.response 404 none none 0)).2)).attempts = 1) ∧
    ((getWithRetry defaultRetry (fun _ => 0)
        (outSeq [(getOnce defaultConfig defaultOpts none 0
            (.response 503 none none 0)).2,
          .ok { data := some 7, etag := none, from304 := false }])).attempts
        = 2 ∧
      (getWithRetry defaultRetry (fun _ => 0)
        (outSeq [(getOnce defaultConfig defaultOpts none 0
            (.response 503 none none 0)).2,
          .ok { data := some 7, etag := none, from304 := false }])).result
        = .ok { data := some 7, etag := none, from304 := false }) := by
  refine ⟨?_, rfl, ?_, by decide, by decide, by decide⟩
  · intro e
    rcases e with ⟨n, c, st, ra⟩
    constructor
    · intro h
      simp only [isRetriable, Bool.or_eq_true, beq_iff_eq] at h
      rcases h with (h | h) | h
      · exact Or.inl h
      · exact Or.inr (Or.inl h)
      · rcases st with _ | s
        · simp at h
        · refine Or.inr (Or.inr ⟨s, rfl, ?_⟩)
          simpa [defaultRetry] using h
    · intro h
      simp only [isRetriable, Bool.or_eq_true, beq_iff_eq]
      rcases h with h | h | ⟨s, hs, hmem⟩
      · exact Or.inl (Or.inl h)
      · exact Or.inl (Or.inr h)
      · subst hs
        refine Or.inr ?_
        simpa [defaultRetry] using hmem
  · intro pol rnd out e hout hretr
    rw [getWithRetry, getWithRetryFrom, retryLoop, hout]
    simp [if_pos (Or.inl hretr)]

/-- Witness for C6's conditional clauses at concrete inputs: the
`EHTTP_404` error produced by `_getOnce` is classified non-retriable
and surfaced after a single attempt. -/
theorem c6_witness :
    (isRetriable defaultRetry.retryOnHTTP (httpError 0 404 none) = false) ∧
    getWithRetry defaultRetry (fun _ => 0)
        (fun _ => .error (httpError 0 404 none)) =
      { result := .error (httpError 0 404 none), attempts := 1,
        delays := [] } :=
  ⟨by decide,
   c6_retriable_classification.2.2.1 defaultRetry (fun _ => 0)
     (fun _ => .error (httpError 0 404 none)) (httpError 0 404 none)
     rfl (by decide)⟩

/-! ### Claim C1 -/

/-- C1: for every retry policy, `_getWithRetry` makes at most
`1 + maxRetries` network attempts.  With `maxRetries = 2`, two
retriable failures followed by a success yield exactly 3 attempts and
the successful result; `maxRetries + 1` consecutive retriable failures
yield exactly 3 attempts and the final error re-thrown verbatim (the
very same error value, not wrapped further). -/
theorem c1_attempt_budget :
    (∀ (pol : RetryPolicy) (rnd : Nat → ℚ)
        (out : Nat → Except JsError FetchResult),
      (getWithRetry pol rnd out).attempts ≤ 1 + pol.maxRetries) ∧
    (∀ (base cap : ℚ) (jit : Bool) (rs : List Nat) (rnd : Nat → ℚ)
        (e1 e2 : JsError) (r : FetchResult),
      isRetriable rs e1 = true → isRetriable rs e2 = true →
      (getWithRetry ⟨2, base, cap, jit, rs⟩ rnd
          (outSeq [.error e1, .error e2, .ok r])).result = .ok r ∧
      (getWithRetry ⟨2, base, cap, jit, rs⟩ rnd
          (outSeq [.error e1, .error e2, .ok r])).attempts = 3) ∧
    (∀ (base cap : ℚ) (jit : Bool) (rs : List Nat) (rnd : Nat → ℚ)
        (e1 e2 e3 : JsError),
      isRetriable rs e1 = true → isRetriable rs e2 = true →
      isRetriable rs e3 = true →
      (getWithRetry ⟨2, base, cap, jit, rs⟩ rnd
          (outSeq [.error e1, .error e2, .error e3])).result = .error e3 ∧
      (getWithRetry ⟨2, base, cap, jit, rs⟩ rnd
          (outSeq [.error e1, .error e2, .error e3])).attempts = 3) := by
  refine ⟨?_, ?_, ?_⟩
  · intro pol rnd out
    have := retryLoop_attempts_le pol rnd out (pol.maxRetries - 0) 0
    rw [getWithRetry, getWithRetryFrom]
    omega
  · intro base cap jit rs rnd e1 e2 r h1 h2
    rw [getWithRetry, getWithRetryFrom]
    rw [retryLoop]
    simp only [outSeq, List.get?, Option.getD_some]
    rw [if_neg (by simp [h1])]
    rw [retryLoop]
    simp only [outSeq, List.get?, Option.getD_some]
    rw [if_neg (by simp [h2])]
    rw [retryLoop]
    simp [outSeq]
  · intro base cap jit rs rnd e1 e2 e3 h1 h2 h3
    rw [getWithRetry, getWithRetryFrom]
    rw [retryLoop]
    simp only [outSeq, List.get?, Option.getD_some]
    rw [if_neg (by simp [h1])]
    rw [retryLoop]
    simp only [outSeq, List.get?, Option.getD_some]
    rw [if_neg (by simp [h2])]
    rw [retryLoop]
    simp only [outSeq, List.get?, Option.getD_some]
    rw [if_pos (Or.inr (by omega))]
    simp

/-- Witness for C1 at concrete inputs: two `EHTTP_503` failures then a
success give exactly three attempts with the successful result, and
three `EHTTP_503` failures give exactly three attempts with the last
error surfaced verbatim. -/
theorem c1_witness :
    ((getWithRetry ⟨2, 250, 4000, true, [429, 500, 502, 503, 504]⟩
        (fun _ => 0)
        (outSeq [.error (httpError 0 503 none), .error (httpError 0 503 none),
          .ok { data := some 7, etag := none, from304 := false }])).result =
      .ok { data := some 7, etag := none, from304 := false }) ∧
    ((getWithRetry ⟨2, 250, 4000, true, [429, 500, 502, 503, 504]⟩
        (fun _ => 0)
        (outSeq [.error (httpError 0 503 none), .error (httpError 0 503 none),
          .error (httpError 0 503 none)])).result =
      .error (httpError 0 503 none)) :=
  ⟨(c1_attempt_budget.2.1 250 4000 true [429, 500, 502, 503, 504]
      (fun _ => 0) (httpError 0 503 none) (httpError 0 503 none)
      { data := some 7, etag := none, from304 := false }
      (by decide) (by decide)).1,
   (c1_attempt_budget.2.2 250 4000 true [429, 500, 502, 503, 504]
      (fun _ => 0) (httpError 0 503 none) (httpError 0 503 none)
      (httpError 0 503 none) (by decide) (by decide) (by decide)).1⟩

/-! ### Claim C7 -/

/-- C7 counterexample: the claim asserts that with jitter the final
delay is always at least half the unjittered exponential value.  The
source computes `Math.floor(exp / 2 + rand)`; with
`backoffBaseMs = 1`, `backoffCapMs = 100`, `attempt = 1` and a random
draw of 0, the unjittered value is 1 and the final delay is
`⌊1/2⌋ = 0 < 1/2` — strictly below half. -/
theorem c7_counterexample :
    computeBackoffDelay 1 1 100 true 0 <
      (min (100 : ℚ) (1 * 2 ^ (1 - 1))) / 2 := by
  have hmin : (min (100 : ℚ) (1 * 2 ^ (1 - 1))) = 1 := by
    norm_num
  have hfl : Int.floor ((1 : ℚ) / 2 + 0 * 1 * (1 / 2)) = 0 := by
    rw [Int.floor_eq_zero_iff]
    constructor <;> norm_num
  simp only [computeBackoffDelay, hmin]
  rw [hfl]
  norm_num

/-- C7 (amended): on a retriable failure the next delay equals the
server-supplied `Retry-After` value when present (a numeric header is
seconds × 1000; an HTTP-date header is the remaining duration clamped
at zero), ignoring backoff math; otherwise the delay is
`computeBackoffDelay`, which without jitter equals
`min(backoffCapMs, backoffBaseMs * 2^(attempt-1))`, and with jitter
equals `⌊delay/2 + random(0, delay/2)⌋` — integer-floored, hence
always strictly greater than `delay/2 − 1` and at most the full
unjittered value (it can fall below half only by the fraction lost to
the floor). -/
theorem c7_backoff_delay :
    (∀ (pol : RetryPolicy) (rnd : Nat → ℚ)
        (out : Nat → Except JsError FetchResult) (attempt : Nat)
        (e : JsError) (ra : ℚ),
      out attempt = .error e → e.retryAfterMs = some ra →
      isRetriable pol.retryOnHTTP e = true →
      attempt + 1 ≤ pol.maxRetries →
      (getWithRetryFrom pol rnd out attempt).delays.head? = some ra) ∧
    (∀ (pol : RetryPolicy) (rnd : Nat → ℚ)
        (out : Nat → Except JsError FetchResult) (attempt : Nat)
        (e : JsError),
      out attempt = .error e → e.retryAfterMs = none →
      isRetriable pol.retryOnHTTP e = true →
      attempt + 1 ≤ pol.maxRetries →
      (getWithRetryFrom pol rnd out attempt).delays.head? =
        some (computeBackoffDelay (attempt + 1) pol.backoffBaseMs
          pol.backoffCapMs pol.jitter (rnd (attempt + 1)))) ∧
    (∀ (now : ℤ) (n : ℚ) (w : ℤ),
      retryAfterMsOfHeader now (some (.secs n)) = some (n * 1000) ∧
      retryAfterMsOfHeader now (some (.httpDate w)) =
        some (max 0 ((w - now : ℤ) : ℚ))) ∧
    (∀ (cfg : Config) (o : CallOpts) (inm : Option String) (now : ℤ)
        (st : Nat) (et : Option String) (ra : Option RetryAfterHeader)
        (b : Nat),
      respOk st = false → st ≠ 304 →
      (getOnce cfg o inm now (.response st et ra b)).2 =
        .error (httpError now st ra)) ∧
    (∀ (a : Nat) (base cap r : ℚ),
      computeBackoffDelay a base cap false r =
        min cap (base * 2 ^ (a - 1))) ∧
    (∀ (a : Nat) (base cap r : ℚ),
      0 ≤ base → 0 ≤ cap → 0 ≤ r → r < 1 →
      (min cap (base * 2 ^ (a - 1))) / 2 - 1 <
          computeBackoffDelay a base cap true r ∧
        computeBackoffDelay a base cap true r ≤
          min cap (base * 2 ^ (a - 1))) := by
  refine ⟨?_, ?_, ?_, ?_, ?_, ?_⟩
  · intro pol rnd out attempt e ra hout hra hretr hle
    obtain ⟨n, hn⟩ : ∃ n, pol.maxRetries - attempt = n + 1 :=
      ⟨pol.maxRetries - attempt - 1, by omega⟩
    have hcond : ¬(isRetriable pol.retryOnHTTP e = false ∨
        attempt + 1 > pol.maxRetries) := by
      rintro (h | h)
      · simp [hretr] at h
      · omega
    rw [getWithRetryFrom, hn, retryLoop]
    simp only [hout]
    rw [if_neg hcond]
    simp [hra]
  · intro pol rnd out attempt e hout hra hretr hle
    obtain ⟨n, hn⟩ : ∃ n, pol.maxRetries - attempt = n + 1 :=
      ⟨pol.maxRetries - attempt - 1, by omega⟩
    have hcond : ¬(isRetriable pol.retryOnHTTP e = false ∨
        attempt + 1 > pol.maxRetries) := by
      rintro (h | h)
      · simp [hretr] at h
      · omega
    rw [getWithRetryFrom, hn, retryLoop]
    simp only [hout]
    rw [if_neg hcond]
    simp [hra]
  · intro now n w
    exact ⟨rfl, rfl⟩
  · intro cfg o inm now st et ra b hok h304
    have h1 : (st == 304) = false := beq_eq_false_iff_ne.mpr h304
    simp [getOnce, h1, hok]
  · intro a base cap r
    simp [computeBackoffDelay]
  · intro a base cap r hb hc hr0 hr1
    have he0 : (0 : ℚ) ≤ min cap (base * 2 ^ (a - 1)) :=
      le_min hc (by positivity)
    have hval : computeBackoffDelay a base cap true r =
        ((Int.floor (min cap (base * 2 ^ (a - 1)) / 2 +
          r * min cap (base * 2 ^ (a - 1)) * (1 / 2)) : ℤ) : ℚ) := by
      simp [computeBackoffDelay]
    rw [hval]
    constructor
    · have h1 := Int.lt_floor_add_one
        (min cap (base * 2 ^ (a - 1)) / 2 +
          r * min cap (base * 2 ^ (a - 1)) * (1 / 2))
      have h2 : 0 ≤ r * min cap (base * 2 ^ (a - 1)) * (1 / 2) := by
        positivity
      linarith
    · have h1 := Int.floor_le
        (min cap (base * 2 ^ (a - 1)) / 2 +
          r * min cap (base * 2 ^ (a - 1)) * (1 / 2))
      have h2 : r * min cap (base * 2 ^ (a - 1)) * (1 / 2) ≤
          min cap (base * 2 ^ (a - 1)) / 2 := by
        nlinarith
      linarith

/-- Witness for C7 at concrete inputs: a `Retry-After` of 2000 ms wins
over backoff, and with base 250 / cap 4000 / attempt 1 / draw 1/2 the
jittered delay lands within the amended envelope. -/
theorem c7_witness :
    ((getWithRetryFrom defaultRetry (fun _ => 0)
        (fun _ => .error
          { name := "FormHydratorError", code := "EHTTP_503",
            status := some 503, retryAfterMs := some 2000 }) 0).delays.head?
      = some 2000) ∧
    ((min (4000 : ℚ) (250 * 2 ^ (1 - 1))) / 2 - 1 <
        computeBackoffDelay 1 250 4000 true (1 / 2) ∧
      computeBackoffDelay 1 250 4000 true (1 / 2) ≤
        min (4000 : ℚ) (250 * 2 ^ (1 - 1))) :=
  ⟨c7_backoff_delay.1 defaultRetry (fun _ => 0)
      (fun _ => .error
        { name := "FormHydratorError", code := "EHTTP_503",
          status := some 503, retryAfterMs := some 2000 }) 0
      { name := "FormHydratorError", code := "EHTTP_503",
        status := some 503, retryAfterMs := some 2000 } 2000
      rfl rfl (by decide) (by decide),
   c7_backoff_delay.2.2.2.2.2 1 250 4000 (1 / 2)
      (by norm_num) (by norm_num) (by norm_num) (by norm_num)⟩

/-! ### Claim C8 -/

/-- C8 counterexample: the claim asserts that an abort caused by the
caller's own cancellation signal is surfaced with no further retry
attempts.  In the source, `_getOnce` converts every `AbortError` into
the same `ETIMEDOUT`/`AbortError` object regardless of who fired the
controller, and `_getWithRetry` classifies it retriable — so with the
default policy a call whose fetches are all aborted by the caller
(`abortFired true`) is attempted 3 times, not once. -/
theorem c8_counterexample :
    ((getOnce defaultConfig defaultOpts none 0 (.abortFired true)).2 =
      .error abortError) ∧
    ((getWithRetry defaultRetry (fun _ => 0)
        (fun _ => (getOnce defaultConfig defaultOpts none 0
          (.abortFired true)).2)).attempts = 3) ∧
    ¬((getWithRetry defaultRetry (fun _ => 0)
        (fun _ => (getOnce defaultConfig defaultOpts none 0
          (.abortFired true)).2)).attempts = 1) := by
  decide

/-- C8 (amended): a timeout or cancellation failure is always
classified retriable — the client does not distinguish caller
cancellation from its own internal deadline.  `_getOnce` maps an abort
fired by either source to one and the same
`AbortError`/`ETIMEDOUT` error, `_getWithRetry` classifies that error
retriable under every policy, and a call whose attempts are all
aborted is retried until the budget is exhausted
(`maxRetries + 1` attempts) before the abort error is surfaced. -/
theorem c8_aborts_always_retried :
    (∀ (cfg : Config) (o : CallOpts) (inm : Option String) (now : ℤ)
        (b1 b2 : Bool),
      getOnce cfg o inm now (.abortFired b1) =
        getOnce cfg o inm now (.abortFired b2)) ∧
    (∀ (cfg : Config) (o : CallOpts) (inm : Option String) (now : ℤ)
        (b1 : Bool),
      (getOnce cfg o inm now (.abortFired b1)).2 = .error abortError) ∧
    (∀ rs : List Nat, isRetriable rs abortError = true) ∧
    (∀ (pol : RetryPolicy) (rnd : Nat → ℚ),
      (getWithRetry pol rnd (fun _ => .error abortError)).result =
          .error abortError ∧
        (getWithRetry pol rnd (fun _ => .error abortError)).attempts =
          pol.maxRetries + 1) := by
  refine ⟨?_, ?_, ?_, ?_⟩
  · intro cfg o inm now b1 b2
    rfl
  · intro cfg o inm now b1
    rfl
  · intro rs
    rfl
  · intro pol rnd
    have h := retryLoop_all_error pol rnd abortError rfl
      (pol.maxRetries - 0) 0 (by omega)
    rw [getWithRetry, getWithRetryFrom]
    exact ⟨h.1, by omega⟩

/-! ### Claim C5 -/

/-- C5 counterexample: two calls to the same path whose per-call
`wpNonce` overrides differ — so the `X-WP-Nonce` headers actually sent
differ — still receive one and the same coalescing key
(`_inflightKey` only sees `opts.headers`, which is absent here), and
are therefore merged into a single shared request, contrary to the
claim. -/
theorem c5_counterexample :
    (inflightKeyOf defaultConfig "/wp-json/frm/v2/forms/7"
        { defaultOpts with wpNonce := some "nonce-a" } =
      inflightKeyOf defaultConfig "/wp-json/frm/v2/forms/7"
        { defaultOpts with wpNonce := some "nonce-b" }) ∧
    (composeHeaders defaultConfig
        { defaultOpts with wpNonce := some "nonce-a" } none "X-WP-Nonce" =
      some "nonce-a") ∧
    (composeHeaders defaultConfig
        { defaultOpts with wpNonce := some "nonce-b" } none "X-WP-Nonce" =
      some "nonce-b") ∧
    ¬(some "nonce-a" = (some "nonce-b" : Option String)) := by
  refine ⟨rfl, rfl, rfl, by decide⟩

/-- C5 (amended): the coalescing key is built from the path and the
per-call `headers` option only — it is entirely insensitive to the
other call options, in particular to a per-call `wpNonce` override
even though that override changes the `X-WP-Nonce` header actually
sent; two concurrent calls differing only in `wpNonce` therefore share
one key and are merged, while calls whose `headers` option differs can
receive distinct keys (as with an extra `X-Trace` header below). -/
theorem c5_key_ignores_nonce :
    (∀ (cfg : Config) (path : String) (o : CallOpts) (n : Option String),
      inflightKeyOf cfg path { o with wpNonce := n } =
        inflightKeyOf cfg path o) ∧
    (∀ (cfg : Config) (path : String)
        (h : Option (List (String × String)))
        (t1 t2 : Option ℤ) (cb1 cb2 : Bool) (ttl1 ttl2 : Option ℤ)
        (n1 n2 : Option String),
      inflightKeyOf cfg path ⟨h, t1, cb1, ttl1, n1⟩ =
        inflightKeyOf cfg path ⟨h, t2, cb2, ttl2, n2⟩) ∧
    ¬(inflightKeyOf defaultConfig "/p"
        { defaultOpts with headers := some [("X-Trace", "abc")] } =
      inflightKeyOf defaultConfig "/p" defaultOpts) := by
  refine ⟨fun cfg path o n => rfl, fun cfg path h t1 t2 cb1 cb2 ttl1 ttl2 n1 n2 => rfl, by decide⟩

/-! ### Circuit-breaker helpers -/

theorem canRequest_closed (now : ℤ) (k : String) (b : Breaker)
    (h : (bentry b k).openedAt = none) : canRequest now k b = (true, b) := by
  unfold canRequest
  rw [h]

theorem canRequest_open (now : ℤ) (k : String) (b : Breaker) (t : ℤ)
    (h : (bentry b k).openedAt = some t) (hw : now - t < b.coolOffMs) :
    canRequest now k b = (false, b) := by
  unfold canRequest
  rw [h]
  simp [hw]

theorem canRequest_elapsed (now : ℤ) (k : String) (b : Breaker) (t : ℤ)
    (h : (bentry b k).openedAt = some t) (hw : b.coolOffMs ≤ now - t) :
    canRequest now k b = (true, bset k { fails := 0, openedAt := none } b) := by
  unfold canRequest
  rw [h]
  simp [not_lt.mpr hw]

theorem bset_threshold (k : String) (v : BreakerEntry) (b : Breaker) :
    (bset k v b).threshold = b.threshold := rfl

theorem recordFailuresAt_cons (k : String) (t : ℤ) (ts : List ℤ)
    (b : Breaker) :
    recordFailuresAt k (t :: ts) b = recordFailuresAt k ts (recordFailure t k b) := rfl

theorem recordFailure_below (now : ℤ) (k : String) (b : Breaker) (i : Nat)
    (h : bentry b k = { fails := i, openedAt := none })
    (hlt : i + 1 < b.threshold) :
    recordFailure now k b = bset k { fails := i + 1, openedAt := none } b := by
  unfold recordFailure
  rw [h]
  simp only []
  rw [if_neg (by omega)]

theorem recordFailuresAt_still_closed (k : String) :
    ∀ (ts : List ℤ) (b : Breaker) (i : Nat),
      bentry b k = { fails := i, openedAt := none } →
      i + ts.length < b.threshold →
      bentry (recordFailuresAt k ts b) k =
          { fails := i + ts.length, openedAt := none } ∧
        (recordFailuresAt k ts b).threshold = b.threshold := by
  intro ts
  induction ts with
  | nil =>
    intro b i h _
    simpa [recordFailuresAt] using h
  | cons t ts ih =>
    intro b i h hlt
    simp only [List.length_cons] at hlt
    have hstep : recordFailure t k b =
        bset k { fails := i + 1, openedAt := none } b :=
      recordFailure_below t k b i h (by omega)
    rw [recordFailuresAt_cons, hstep]
    have hent : bentry (bset k { fails := i + 1, openedAt := none } b) k =
        { fails := i + 1, openedAt := none } := bentry_bset_self k _ b
    have := ih (bset k { fails := i + 1, openedAt := none } b) (i + 1) hent
      (by rw [bset_threshold]; omega)
    refine ⟨?_, ?_⟩
    · rw [this.1]
      congr 1
      simp only [List.length_cons]
      omega
    · rw [this.2, bset_threshold]

theorem recordFailuresAt_opens (k : String) (ts : List ℤ) (b : Breaker)
    (t : ℤ) (hc : bentry b k = { fails := 0, openedAt := none })
    (hlen : ts.length = b.threshold)
    (hlast : ts.getLast? = some t) :
    bentry (recordFailuresAt k ts b) k =
      { fails := b.threshold, openedAt := some t } := by
  induction ts using List.reverseRecOn with
  | nil => simp at hlast
  | append_singleton init last _ =>
    have hlast' : last = t := by
      rw [List.getLast?_concat init] at hlast
      exact Option.some.inj hlast
    have hil : init.length + 1 = b.threshold := by
      simpa using hlen
    have hinit := recordFailuresAt_still_closed k init b 0 hc (by omega)
    have hfold : recordFailuresAt k (init ++ [last]) b =
        recordFailure last k (recordFailuresAt k init b) := by
      simp [recordFailuresAt, List.foldl_append]
    rw [hfold]
    simp only [recordFailure, hinit.1]
    rw [if_pos (by rw [hinit.2]; omega)]
    rw [bentry_bset_self, hlast']
    congr 1
    omega

theorem getWCR_circuit_open {σ : Type} (C : CacheLike σ) (cfg : Config)
    (path : String) (ttl : ℤ) (o : CallOpts) (now : ℤ)
    (evs : Nat → FetchEvent) (rnd : Nat → ℚ) (st : σ) (b : Breaker)
    (f : Nat) (t : ℤ)
    (h : bentry b (cfg.baseUrl ++ path) = { fails := f, openedAt := some t })
    (hw : now - t < b.coolOffMs) :
    getWithCacheAndRetry C cfg path ttl o now evs rnd st b =
      { result := .error circuitOpenError, requests := [], cacheSt := st,
        breaker := b } := by
  have hcr : canRequest now (cfg.baseUrl ++ path) b = (false, b) :=
    canRequest_open now (cfg.baseUrl ++ path) b t (by rw [h]) hw
  simp only [getWithCacheAndRetry, hcr]

theorem getWithRetry_attempts_pos (pol : RetryPolicy) (rnd : Nat → ℚ)
    (out : Nat → Except JsError FetchResult) :
    1 ≤ (getWithRetry pol rnd out).attempts := by
  rw [getWithRetry, getWithRetryFrom]
  exact retryLoop_attempts_pos pol rnd out (pol.maxRetries - 0) 0

theorem runRetry_requests_nonempty (cfg : Config) (o : CallOpts)
    (inm : Option String) (now : ℤ) (evs : Nat → FetchEvent)
    (rnd : Nat → ℚ) :
    (runRetry cfg o inm now evs rnd).requests ≠ [] := by
  simp only [runRetry]
  intro h
  rw [List.replicate_eq_nil_iff] at h
  have := getWithRetry_attempts_pos cfg.retry rnd
    (fun i => (getOnce cfg o inm now (evs i)).2)
  omega

theorem getWCR_requests_nonempty {σ : Type} (C : CacheLike σ)
    (cfg : Config) (path : String) (ttl : ℤ) (o : CallOpts) (now : ℤ)
    (evs : Nat → FetchEvent) (rnd : Nat → ℚ) (st : σ) (b b2 : Breaker)
    (hcr : canRequest now (cfg.baseUrl ++ path) b = (true, b2)) :
    (getWithCacheAndRetry C cfg path ttl o now evs rnd st b).requests ≠
      [] := by
  simp only [getWithCacheAndRetry, hcr]
  split
  · exact runRetry_requests_nonempty _ _ _ _ _ _
  · exact runRetry_requests_nonempty _ _ _ _ _ _

theorem getWCR_success_resets {σ : Type} (C : CacheLike σ) (cfg : Config)
    (path : String) (ttl : ℤ) (o : CallOpts) (now : ℤ)
    (evs : Nat → FetchEvent) (rnd : Nat → ℚ) (st : σ) (b : Breaker)
    (p : Option Nat)
    (h : (getWithCacheAndRetry C cfg path ttl o now evs rnd st b).result =
      .ok p) :
    bentry
      (getWithCacheAndRetry C cfg path ttl o now evs rnd st b).breaker
      (cfg.baseUrl ++ path) = { fails := 0, openedAt := none } := by
  revert h
  simp only [getWithCacheAndRetry]
  split
  · intro h
    simp at h
  · split
    · intro h
      simp at h
    · intro _
      exact bentry_bset_self _ _ _

/-! ### Claim C2 -/

/-- C2: per endpoint key, `threshold` (default 5, cool-off default
15000 ms) consecutive terminal failures recorded from a closed state
open the breaker with `openedAt` stamped at the last failure's time;
any call started while `now − openedAt < coolOffMs` fails fast with
the `ECIRCUIT_OPEN` error, issuing no network request and leaving
cache and breaker untouched; every terminal success resets the
consecutive-failure count to 0 and clears `openedAt` (both as a
breaker transition and after any successful guarded call); and once
the cool-off has elapsed the breaker resets to Closed before the probe
and the next call is attempted against the network. -/
theorem c2_circuit_breaker :
    ((mkBreaker none none).threshold = 5 ∧
      (mkBreaker none none).coolOffMs = 15000 ∧
      circuitOpenError.code = "ECIRCUIT_OPEN") ∧
    (∀ (k : String) (ts : List ℤ) (b : Breaker) (t : ℤ),
      bentry b k = { fails := 0, openedAt := none } →
      ts.length = b.threshold → ts.getLast? = some t →
      bentry (recordFailuresAt k ts b) k =
        { fails := b.threshold, openedAt := some t }) ∧
    (∀ (σ : Type) (C : CacheLike σ) (cfg : Config) (path : String)
        (ttl : ℤ) (o : CallOpts) (now : ℤ) (evs : Nat → FetchEvent)
        (rnd : Nat → ℚ) (st : σ) (b : Breaker) (f : Nat) (t : ℤ),
      bentry b (cfg.baseUrl ++ path) = { fails := f, openedAt := some t } →
      now - t < b.coolOffMs →
      getWithCacheAndRetry C cfg path ttl o now evs rnd st b =
        { result := .error circuitOpenError, requests := [], cacheSt := st,
          breaker := b }) ∧
    (∀ (k : String) (b : Breaker),
      bentry (recordSuccess k b) k = { fails := 0, openedAt := none }) ∧
    (∀ (σ : Type) (C : CacheLike σ) (cfg : Config) (path : String)
        (ttl : ℤ) (o : CallOpts) (now : ℤ) (evs : Nat → FetchEvent)
        (rnd : Nat → ℚ) (st : σ) (b : Breaker) (p : Option Nat),
      (getWithCacheAndRetry C cfg path ttl o now evs rnd st b).result =
        .ok p →
      bentry
        (getWithCacheAndRetry C cfg path ttl o now evs rnd st b).breaker
        (cfg.baseUrl ++ path) = { fails := 0, openedAt := none }) ∧
    (∀ (now : ℤ) (k : String) (b : Breaker) (t : ℤ),
      (bentry b k).openedAt = some t → b.coolOffMs ≤ now - t →
      canRequest now k b =
        (true, bset k { fails := 0, openedAt := none } b)) ∧
    (∀ (σ : Type) (C : CacheLike σ) (cfg : Config) (path : String)
        (ttl : ℤ) (o : CallOpts) (now : ℤ) (evs : Nat → FetchEvent)
        (rnd : Nat → ℚ) (st : σ) (b : Breaker) (t : ℤ),
      (bentry b (cfg.baseUrl ++ path)).openedAt = some t →
      b.coolOffMs ≤ now - t →
      (getWithCacheAndRetry C cfg path ttl o now evs rnd st b).requests ≠
        []) := by
  refine ⟨⟨rfl, rfl, rfl⟩, ?_, ?_, ?_, ?_, ?_, ?_⟩
  · intro k ts b t hc hlen hlast
    exact recordFailuresAt_opens k ts b t hc hlen hlast
  · intro σ C cfg path ttl o now evs rnd st b f t h hw
    exact getWCR_circuit_open C cfg path ttl o now evs rnd st b f t h hw
  · intro k b
    exact bentry_bset_self _ _ _
  · intro σ C cfg path ttl o now evs rnd st b p h
    exact getWCR_success_resets C cfg path ttl o now evs rnd st b p h
  · intro now k b t h hw
    exact canRequest_elapsed now k b t h hw
  · intro σ C cfg path ttl o now evs rnd st b t h hw
    exact getWCR_requests_nonempty C cfg path ttl o now evs rnd st b _
      (canRequest_elapsed now (cfg.baseUrl ++ path) b t h hw)

/-- Witness for C2 at concrete inputs: a breaker with threshold 3 and
cool-off 100, opened by failures at times 1, 2, 3, fails a call at
time 50 fast with `ECIRCUIT_OPEN`, and allows (and resets for) a probe
at time 200. -/
theorem c2_witness :
    (bentry
        (recordFailuresAt "/p" [1, 2, 3] (mkBreaker (some 3) (some 100)))
        "/p" = { fails := 3, openedAt := some 3 }) ∧
    (getWithCacheAndRetry simpleTTLCache defaultConfig "/p" 30000
        defaultOpts 50 (fun _ => .response 200 none none 7) (fun _ => 0)
        []
        (recordFailuresAt "/p" [1, 2, 3] (mkBreaker (some 3) (some 100))) =
      { result := .error circuitOpenError, requests := [], cacheSt := [],
        breaker :=
          recordFailuresAt "/p" [1, 2, 3] (mkBreaker (some 3) (some 100)) }) ∧
    (canRequest 200 "/p"
        (recordFailuresAt "/p" [1, 2, 3] (mkBreaker (some 3) (some 100))) =
      (true, bset "/p" { fails := 0, openedAt := none }
        (recordFailuresAt "/p" [1, 2, 3] (mkBreaker (some 3) (some 100))))) :=
  ⟨c2_circuit_breaker.2.1 "/p" [1, 2, 3] (mkBreaker (some 3) (some 100)) 3
      (by decide) (by decide) (by decide),
   c2_circuit_breaker.2.2.1 TTLStore simpleTTLCache defaultConfig "/p"
      30000 defaultOpts 50 (fun _ => .response 200 none none 7)
      (fun _ => 0) [] _ 3 3 (by decide) (by decide),
   c2_circuit_breaker.2.2.2.2.2.1 200 "/p" _ 3 (by decide) (by decide)⟩

/-! ### Single-attempt evaluation helpers -/

theorem getOnce_ok (cfg : Config) (o : CallOpts) (inm : Option String)
    (now : ℤ) (status : Nat) (et : Option String)
    (ra : Option RetryAfterHeader) (body : Nat)
    (hok : respOk status = true) (h304 : status ≠ 304) :
    (getOnce cfg o inm now (.response status et ra body)).2 =
      .ok { data := some body, etag := et, from304 := false } := by
  have h1 : (status == 304) = false := beq_eq_false_iff_ne.mpr h304
  simp [getOnce, h1, hok]

theorem getOnce_304 (cfg : Config) (o : CallOpts) (inm : Option String)
    (now : ℤ) (et : Option String) (ra : Option RetryAfterHeader)
    (body : Nat) :
    (getOnce cfg o inm now (.response 304 et ra body)).2 =
      .ok { data := none, etag := inm, from304 := true } := by
  simp [getOnce]

theorem runRetry_first_ok (cfg : Config) (o : CallOpts)
    (inm : Option String) (now : ℤ) (evs : Nat → FetchEvent)
    (rnd : Nat → ℚ) (status : Nat) (et : Option String)
    (ra : Option RetryAfterHeader) (body : Nat)
    (hev : evs 0 = .response status et ra body)
    (hok : respOk status = true) (h304 : status ≠ 304) :
    runRetry cfg o inm now evs rnd =
      { result := .ok { data := some body, etag := et, from304 := false },
        requests := [composeHeaders cfg o inm], delays := [] } := by
  simp only [runRetry, getWithRetry, getWithRetryFrom]
  rw [retryLoop]
  simp only [hev, getOnce_ok cfg o inm now status et ra body hok h304,
    List.replicate_one]

theorem runRetry_first_304 (cfg : Config) (o : CallOpts)
    (inm : Option String) (now : ℤ) (evs : Nat → FetchEvent)
    (rnd : Nat → ℚ) (et : Option String) (ra : Option RetryAfterHeader)
    (body : Nat) (hev : evs 0 = .response 304 et ra body) :
    runRetry cfg o inm now evs rnd =
      { result := .ok { data := none, etag := inm, from304 := true },
        requests := [composeHeaders cfg o inm], delays := [] } := by
  simp only [runRetry, getWithRetry, getWithRetryFrom]
  rw [retryLoop]
  simp only [hev, getOnce_304 cfg o inm now et ra body,
    List.replicate_one]

/-! ### Write-through and revalidation lemmas for the default cache -/

theorem getWCR_success_write (cfg : Config) (path : String) (ttl : ℤ)
    (o : CallOpts) (now : ℤ) (evs : Nat → FetchEvent) (rnd : Nat → ℚ)
    (st : TTLStore) (b : Breaker) (status : Nat) (et : Option String)
    (ra : Option RetryAfterHeader) (body : Nat)
    (hbr : (bentry b (cfg.baseUrl ++ path)).openedAt = none)
    (hbp : o.cacheBypass = false)
    (hev : evs 0 = .response status et ra body)
    (hok : respOk status = true) (h304 : status ≠ 304) :
    (getWithCacheAndRetry simpleTTLCache cfg path ttl o now evs rnd st
        b).result = .ok (some body) ∧
    (getWithCacheAndRetry simpleTTLCache cfg path ttl o now evs rnd st
        b).cacheSt.lookup (cfg.baseUrl ++ path) =
      some (if o.ttlMs.getD ttl > 0 then now + o.ttlMs.getD ttl else 0,
        writeVal (some body) et) ∧
    (getWithCacheAndRetry simpleTTLCache cfg path ttl o now evs rnd st
        b).breaker = recordSuccess (cfg.baseUrl ++ path) b := by
  have hcr : canRequest now (cfg.baseUrl ++ path) b = (true, b) :=
    canRequest_closed now (cfg.baseUrl ++ path) b hbr
  simp only [getWithCacheAndRetry, hcr, hbp, simpleTTLCache]
  rw [runRetry_first_ok _ _ _ _ _ _ _ _ _ _ hev hok h304]
  simp [lookup_ttlSet_self]

theorem getWCR_revalidate (cfg : Config) (path : String) (ttl : ℤ)
    (o : CallOpts) (now : ℤ) (evs : Nat → FetchEvent) (rnd : Nat → ℚ)
    (st : TTLStore) (b : Breaker) (e : String) (bdy : Nat) (exp : ℤ)
    (et304 : Option String) (ra304 : Option RetryAfterHeader) (b304 : Nat)
    (hbr : (bentry b (cfg.baseUrl ++ path)).openedAt = none)
    (hbp : o.cacheBypass = false)
    (hst : st.lookup (cfg.baseUrl ++ path) =
      some (exp, .tagged e (some bdy)))
    (hexp : ¬(exp ≠ 0 ∧ now > exp)) (he : e ≠ "")
    (hev : evs 0 = .response 304 et304 ra304 b304) :
    (getWithCacheAndRetry simpleTTLCache cfg path ttl o now evs rnd st
        b).result = .ok (some bdy) ∧
    (getWithCacheAndRetry simpleTTLCache cfg path ttl o now evs rnd st
        b).requests.map (fun h => h "If-None-Match") = [some e] ∧
    (getWithCacheAndRetry simpleTTLCache cfg path ttl o now evs rnd st
        b).cacheSt.lookup (cfg.baseUrl ++ path) =
      some (if o.ttlMs.getD ttl > 0 then now + o.ttlMs.getD ttl else 0,
        CacheVal.tagged e (some bdy)) ∧
    (getWithCacheAndRetry simpleTTLCache cfg path ttl o now evs rnd st
        b).breaker = recordSuccess (cfg.baseUrl ++ path) b := by
  have hcr : canRequest now (cfg.baseUrl ++ path) b = (true, b) :=
    canRequest_closed now (cfg.baseUrl ++ path) b hbr
  have hee : (e == "") = false := beq_eq_false_iff_ne.mpr he
  have hget : ttlGet st now (cfg.baseUrl ++ path) =
      (some (.tagged e (some bdy)), st) := by
    simp [ttlGet, hst, hexp]
  simp only [getWithCacheAndRetry, hcr, hbp, simpleTTLCache, hget]
  rw [runRetry_first_304 _ _ _ _ _ _ _ _ _ hev]
  simp [readCacheEntry, writeVal, hee, lookup_ttlSet_self,
    composeHeaders, truthy]

/-! ### Claim C3 -/

/-- C3: a non-304 success stores the response body together with the
response's ETag; a later call on a stored `{__etag, __body}` entry that
has not expired sends `If-None-Match` equal to the stored ETag and, on
a 304 answer, returns the cached body and keeps the stored ETag — so a
cache entry's etag, when present, is the one of the most recent
non-304 response.  Composing the two: an endpoint fetched twice within
its TTL with no intervening invalidation or bypass revalidates with
the first response's ETag and serves the first call's body on 304. -/
theorem c3_conditional_revalidation :
    (∀ (cfg : Config) (path : String) (ttl : ℤ) (o : CallOpts) (now : ℤ)
        (evs : Nat → FetchEvent) (rnd : Nat → ℚ) (st : TTLStore)
        (b : Breaker) (status : Nat) (et : Option String)
        (ra : Option RetryAfterHeader) (body : Nat),
      (bentry b (cfg.baseUrl ++ path)).openedAt = none →
      o.cacheBypass = false →
      evs 0 = .response status et ra body →
      respOk status = true → status ≠ 304 →
      (getWithCacheAndRetry simpleTTLCache cfg path ttl o now evs rnd st
          b).cacheSt.lookup (cfg.baseUrl ++ path) =
        some (if o.ttlMs.getD ttl > 0 then now + o.ttlMs.getD ttl else 0,
          writeVal (some body) et)) ∧
    (∀ (cfg : Config) (path : String) (ttl : ℤ) (o : CallOpts) (now : ℤ)
        (evs : Nat → FetchEvent) (rnd : Nat → ℚ) (st : TTLStore)
        (b : Breaker) (e : String) (bdy : Nat) (exp : ℤ)
        (et304 : Option String) (ra304 : Option RetryAfterHeader)
        (b304 : Nat),
      (bentry b (cfg.baseUrl ++ path)).openedAt = none →
      o.cacheBypass = false →
      st.lookup (cfg.baseUrl ++ path) = some (exp, .tagged e (some bdy)) →
      ¬(exp ≠ 0 ∧ now > exp) → e ≠ "" →
      evs 0 = .response 304 et304 ra304 b304 →
      (getWithCacheAndRetry simpleTTLCache cfg path ttl o now evs rnd st
          b).requests.map (fun h => h "If-None-Match") = [some e] ∧
      (getWithCacheAndRetry simpleTTLCache cfg path ttl o now evs rnd st
          b).result = .ok (some bdy) ∧
      (getWithCacheAndRetry simpleTTLCache cfg path ttl o now evs rnd st
          b).cacheSt.lookup (cfg.baseUrl ++ path) =
        some (if o.ttlMs.getD ttl > 0 then now + o.ttlMs.getD ttl else 0,
          CacheVal.tagged e (some bdy))) ∧
    (∀ (cfg : Config) (path : String) (ttl : ℤ) (o : CallOpts)
        (now1 now2 : ℤ) (evs1 evs2 : Nat → FetchEvent)
        (rnd1 rnd2 : Nat → ℚ) (st : TTLStore) (b : Breaker) (e : String)
        (body : Nat) (status : Nat) (ra1 ra2 : Option RetryAfterHeader)
        (et2 : Option String) (b2 : Nat),
      (bentry b (cfg.baseUrl ++ path)).openedAt = none →
      o.cacheBypass = false →
      evs1 0 = .response status (some e) ra1 body →
      respOk status = true → status ≠ 304 → e ≠ "" →
      0 < o.ttlMs.getD ttl → now2 ≤ now1 + o.ttlMs.getD ttl →
      evs2 0 = .response 304 et2 ra2 b2 →
      (getWithCacheAndRetry simpleTTLCache cfg path ttl o now1 evs1 rnd1
          st b).result = .ok (some body) ∧
      (getWithCacheAndRetry simpleTTLCache cfg path ttl o now2 evs2 rnd2
          (getWithCacheAndRetry simpleTTLCache cfg path ttl o now1 evs1
            rnd1 st b).cacheSt
          (getWithCacheAndRetry simpleTTLCache cfg path ttl o now1 evs1
            rnd1 st b).breaker).requests.map
          (fun h => h "If-None-Match") = [some e] ∧
      (getWithCacheAndRetry simpleTTLCache cfg path ttl o now2 evs2 rnd2
          (getWithCacheAndRetry simpleTTLCache cfg path ttl o now1 evs1
            rnd1 st b).cacheSt
          (getWithCacheAndRetry simpleTTLCache cfg path ttl o now1 evs1
            rnd1 st b).breaker).result = .ok (some body) ∧
      (getWithCacheAndRetry simpleTTLCache cfg path ttl o now2 evs2 rnd2
          (getWithCacheAndRetry simpleTTLCache cfg path ttl o now1 evs1
            rnd1 st b).cacheSt
          (getWithCacheAndRetry simpleTTLCache cfg path ttl o now1 evs1
            rnd1 st b).breaker).cacheSt.lookup (cfg.baseUrl ++ path) =
        some (now2 + o.ttlMs.getD ttl, CacheVal.tagged e (some body))) := by
  refine ⟨?_, ?_, ?_⟩
  · intro cfg path ttl o now evs rnd st b status et ra body hbr hbp hev
      hok h304
    exact (getWCR_success_write cfg path ttl o now evs rnd st b status et
      ra body hbr hbp hev hok h304).2.1
  · intro cfg path ttl o now evs rnd st b e bdy exp et304 ra304 b304 hbr
      hbp hst hexp he hev
    have h := getWCR_revalidate cfg path ttl o now evs rnd st b e bdy exp
      et304 ra304 b304 hbr hbp hst hexp he hev
    exact ⟨h.2.1, h.1, h.2.2.1⟩
  · intro cfg path ttl o now1 now2 evs1 evs2 rnd1 rnd2 st b e body status
      ra1 ra2 et2 b2 hbr hbp hev1 hok h304 he heff hle hev2
    have hee : (e == "") = false := beq_eq_false_iff_ne.mpr he
    have h1 := getWCR_success_write cfg path ttl o now1 evs1 rnd1 st b
      status (some e) ra1 body hbr hbp hev1 hok h304
    have hwv : writeVal (some body) (some e) =
        CacheVal.tagged e (some body) := by
      simp [writeVal, hee]
    have hexp1 : (if o.ttlMs.getD ttl > 0 then now1 + o.ttlMs.getD ttl
        else 0) = now1 + o.ttlMs.getD ttl := if_pos heff
    have hst2 : (getWithCacheAndRetry simpleTTLCache cfg path ttl o now1
        evs1 rnd1 st b).cacheSt.lookup (cfg.baseUrl ++ path) =
        some (now1 + o.ttlMs.getD ttl, CacheVal.tagged e (some body)) := by
      rw [h1.2.1, hwv, hexp1]
    have hbr2 : (bentry (getWithCacheAndRetry simpleTTLCache cfg path ttl
        o now1 evs1 rnd1 st b).breaker (cfg.baseUrl ++ path)).openedAt =
        none := by
      rw [h1.2.2]
      rw [show recordSuccess (cfg.baseUrl ++ path) b =
        bset (cfg.baseUrl ++ path) { fails := 0, openedAt := none } b
        from rfl]
      rw [bentry_bset_self]
    have hexp2 : ¬((now1 + o.ttlMs.getD ttl) ≠ 0 ∧
        now2 > now1 + o.ttlMs.getD ttl) := by
      rintro ⟨_, hgt⟩
      omega
    have h2 := getWCR_revalidate cfg path ttl o now2 evs2 rnd2 _ _ e body
      (now1 + o.ttlMs.getD ttl) et2 ra2 b2 hbr2 hbp hst2 hexp2 he hev2
    refine ⟨h1.1, h2.2.1, h2.1, ?_⟩
    rw [h2.2.2.1, if_pos heff]

/-- Witness for C3 at concrete inputs: first call at time 0 fetches a
200 with ETag `W1` and body 7; the second call at time 10, within the
30000 ms TTL, sends `If-None-Match: W1`, receives a 304 and returns
the cached body 7 with the stored ETag still `W1`. -/
theorem c3_witness :
    (getWithCacheAndRetry simpleTTLCache defaultConfig "/p" 30000
        defaultOpts 0 (fun _ => .response 200 (some "W1") none 7)
        (fun _ => 0) [] (mkBreaker none none)).result = .ok (some 7) ∧
    (getWithCacheAndRetry simpleTTLCache defaultConfig "/p" 30000
        defaultOpts 10 (fun _ => .response 304 none none 0) (fun _ => 0)
        (getWithCacheAndRetry simpleTTLCache defaultConfig "/p" 30000
          defaultOpts 0 (fun _ => .response 200 (some "W1") none 7)
          (fun _ => 0) [] (mkBreaker none none)).cacheSt
        (getWithCacheAndRetry simpleTTLCache defaultConfig "/p" 30000
          defaultOpts 0 (fun _ => .response 200 (some "W1") none 7)
          (fun _ => 0) [] (mkBreaker none none)).breaker).requests.map
      (fun h => h "If-None-Match") = [some "W1"] ∧
    (getWithCacheAndRetry simpleTTLCache defaultConfig "/p" 30000
        defaultOpts 10 (fun _ => .response 304 none none 0) (fun _ => 0)
        (getWithCacheAndRetry simpleTTLCache defaultConfig "/p" 30000
          defaultOpts 0 (fun _ => .response 200 (some "W1") none 7)
          (fun _ => 0) [] (mkBreaker none none)).cacheSt
        (getWithCacheAndRetry simpleTTLCache defaultConfig "/p" 30000
          defaultOpts 0 (fun _ => .response 200 (some "W1") none 7)
          (fun _ => 0) [] (mkBreaker none none)).breaker).result =
      .ok (some 7) ∧
    (getWithCacheAndRetry simpleTTLCache defaultConfig "/p" 30000
        defaultOpts 10 (fun _ => .response 304 none none 0) (fun _ => 0)
        (getWithCacheAndRetry simpleTTLCache defaultConfig "/p" 30000
          defaultOpts 0 (fun _ => .response 200 (some "W1") none 7)
          (fun _ => 0) [] (mkBreaker none none)).cacheSt
        (getWithCacheAndRetry simpleTTLCache defaultConfig "/p" 30000
          defaultOpts 0 (fun _ => .response 200 (some "W1") none 7)
          (fun _ => 0) [] (mkBreaker none none)).breaker).cacheSt.lookup
      "/p" = some (10 + 30000, CacheVal.tagged "W1" (some 7)) :=
  c3_conditional_revalidation.2.2 defaultConfig "/p" 30000 defaultOpts 0
    10 (fun _ => .response 200 (some "W1") none 7)
    (fun _ => .response 304 none none 0) (fun _ => 0) (fun _ => 0) []
    (mkBreaker none none) "W1" 7 200 none none none 0 rfl rfl rfl rfl
    (by decide) (by decide) (by decide) (by decide) rfl

/-! ### Claim C9 -/

/-- C9: for every cache implementation whose `get` and `set` throw,
`_getWithCacheAndRetry` still completes with the fetched network
result: the throwing read is treated as a miss (so no conditional
header is derived from it), the throwing write is a no-op (the cache
state is returned unchanged), and the cache error never propagates —
the settled result is exactly the retry engine's network outcome.  The
top-level operations (`getFormIdByKey`, `getFormMetadata`,
`getFormFields`, `hydrate`) only add shape guards on this returned
payload and perform no further cache interaction. -/
theorem c9_cache_failures_nonfatal (σ : Type) (C : CacheLike σ)
    (cfg : Config) (path : String) (ttl : ℤ) (o : CallOpts) (now : ℤ)
    (evs : Nat → FetchEvent) (rnd : Nat → ℚ) (st : σ) (b : Breaker)
    (hget : ∀ st2 : σ, C.get st2 now (cfg.baseUrl ++ path) = .error ())
    (hset : ∀ (st2 : σ) (v : CacheVal) (t : ℤ),
      C.set st2 now (cfg.baseUrl ++ path) v t = .error ())
    (hbr : (bentry b (cfg.baseUrl ++ path)).openedAt = none) :
    (getWithCacheAndRetry C cfg path ttl o now evs rnd st b).result =
      Except.map FetchResult.data (runRetry cfg o none now evs rnd).result ∧
    (getWithCacheAndRetry C cfg path ttl o now evs rnd st b).cacheSt =
      st := by
  have hcr := canRequest_closed now (cfg.baseUrl ++ path) b hbr
  simp only [getWithCacheAndRetry, hcr]
  cases hbp : o.cacheBypass with
  | true =>
    simp only [hbp]
    split
    · next e heq =>
      simp only [if_true] at heq
      simp [Except.map, heq]
    · next fr heq =>
      simp only [if_true] at heq
      simp [Except.map, heq]
  | false =>
    simp only [hbp, hget st]
    split
    · next e heq =>
      simp [hget] at heq
      simp [Except.map, heq]
    · next fr heq =>
      simp [hget] at heq
      simp [Except.map, heq, hset]

/-- Witness for C9: the always-throwing cache still yields the network
result for a concrete 200 response. -/
theorem c9_witness :
    (getWithCacheAndRetry throwingCache defaultConfig "/p" 30000
        defaultOpts 0 (fun _ => .response 200 (some "E") none 7)
        (fun _ => 0) () (mkBreaker none none)).result =
      Except.map FetchResult.data
        (runRetry defaultConfig defaultOpts none 0
          (fun _ => .response 200 (some "E") none 7) (fun _ => 0)).result ∧
    (getWithCacheAndRetry throwingCache defaultConfig "/p" 30000
        defaultOpts 0 (fun _ => .response 200 (some "E") none 7)
        (fun _ => 0) () (mkBreaker none none)).cacheSt = () :=
  c9_cache_failures_nonfatal Unit throwingCache defaultConfig "/p" 30000
    defaultOpts 0 (fun _ => .response 200 (some "E") none 7) (fun _ => 0)
    () (mkBreaker none none) (fun _ => rfl) (fun _ _ _ => rfl) rfl

/-! ### Coalescer helpers -/

theorem lookup_none_not_mem {α : Type} (k : String)
    (l : List (String × α)) (h : l.lookup k = none) :
    k ∉ l.map Prod.fst := by
  induction l with
  | nil => simp
  | cons p l ih =>
    intro hmem
    rw [List.map_cons, List.mem_cons] at hmem
    rcases hmem with h1 | h1
    · have : (k == p.1) = true := beq_iff_eq.mpr h1
      simp [List.lookup, this] at h
    · cases hkp : (k == p.1) with
      | true => simp [List.lookup, hkp] at h
      | false =>
        rw [List.lookup] at h
        rw [hkp] at h
        exact ih h h1

theorem countP_keys_le_one {α : Type} (k : String)
    (l : List (String × α)) (h : (l.map Prod.fst).Nodup) :
    l.countP (fun p => p.1 == k) ≤ 1 := by
  induction l with
  | nil => simp
  | cons p l ih =>
    rw [List.map_cons, List.nodup_cons] at h
    rw [List.countP_cons]
    by_cases hp : (p.1 == k) = true
    · have hpk : p.1 = k := beq_iff_eq.mp hp
      have hz : l.countP (fun q => q.1 == k) = 0 := by
        rw [List.countP_eq_zero]
        intro q hq hbq
        have hqk : q.1 = k := beq_iff_eq.mp hbq
        exact h.1 (by rw [hpk, ← hqk]; exact List.mem_map_of_mem Prod.fst hq)
      simp [hp, hz]
    · have hp' : (p.1 == k) = false := by simpa using hp
      simpa [hp'] using ih h.2

/-- Key uniqueness of the in-flight registry map. -/
def keysNodup (s : CoState) : Prop := (s.inflight.map Prod.fst).Nodup

theorem coStep_keysNodup (s : CoState) (e : CoEvent) (h : keysNodup s) :
    keysNodup (coStep s e) := by
  cases e with
  | arrive c k =>
    simp only [coStep]
    cases hl : s.inflight.lookup k with
    | some op => exact h
    | none =>
      exact List.nodup_cons.mpr ⟨lookup_none_not_mem k _ hl, h⟩
  | settle k ok =>
    exact List.Nodup.sublist
      (List.Sublist.map Prod.fst (List.filter_sublist _)) h

theorem coRun_keysNodup (evs : List CoEvent) : keysNodup (coRun evs) := by
  suffices h : ∀ s, keysNodup s → keysNodup (evs.foldl coStep s) by
    exact h coInit (by simp [keysNodup, coInit])
  induction evs with
  | nil => intro s h; exact h
  | cons e evs ih => intro s h; exact ih _ (coStep_keysNodup s e h)

/-! ### Claim C4 -/

/-- C4: in every interleaving of arrivals and settlements starting from
the empty registry, at most one operation per coalescing key is in
flight at any instant; a caller arriving while its key is pending
joins the registered operation — no new network request is started and
the registry is unchanged; a pending registration survives every event
other than its own settlement; two distinct callers joining the same
pending operation observe the same operation's result; settlement
removes the registry entry irrespective of success or failure; and the
coalescing key is one and the same for calls to the same path with
identical per-call headers. -/
theorem c4_coalescing :
    (∀ (evs : List CoEvent) (k : String), keyCount k (coRun evs) ≤ 1) ∧
    (∀ (s : CoState) (c : Nat) (k : String) (op : Nat),
      s.inflight.lookup k = some op →
      coStep s (.arrive c k) = { s with assigned := (c, op) :: s.assigned }) ∧
    (∀ (s : CoState) (e : CoEvent) (k : String) (op : Nat),
      s.inflight.lookup k = some op → (∀ ok, e ≠ .settle k ok) →
      (coStep s e).inflight.lookup k = some op) ∧
    (∀ (s : CoState) (c1 c2 : Nat) (k : String) (op : Nat)
        (results : Nat → Nat),
      s.inflight.lookup k = some op → c1 ≠ c2 →
      resultOf results (coStep (coStep s (.arrive c1 k)) (.arrive c2 k))
          c1 = some (results op) ∧
      resultOf results (coStep (coStep s (.arrive c1 k)) (.arrive c2 k))
          c2 = some (results op) ∧
      (coStep (coStep s (.arrive c1 k)) (.arrive c2 k)).started =
          s.started ∧
      (coStep (coStep s (.arrive c1 k)) (.arrive c2 k)).nextOp =
          s.nextOp) ∧
    (∀ (s : CoState) (k : String) (ok : Bool),
      (coStep s (.settle k ok)).inflight.lookup k = none ∧
      coStep s (.settle k true) = coStep s (.settle k false)) ∧
    (∀ (cfg : Config) (path : String)
        (h : Option (List (String × String))) (t1 t2 : Option ℤ)
        (cb1 cb2 : Bool) (ttl1 ttl2 : Option ℤ) (n1 n2 : Option String),
      inflightKeyOf cfg path ⟨h, t1, cb1, ttl1, n1⟩ =
        inflightKeyOf cfg path ⟨h, t2, cb2, ttl2, n2⟩) := by
  refine ⟨?_, ?_, ?_, ?_, ?_, ?_⟩
  · intro evs k
    exact countP_keys_le_one k _ (coRun_keysNodup evs)
  · intro s c k op h
    simp [coStep, h]
  · intro s e k op h hne
    cases e with
    | arrive c k2 =>
      simp only [coStep]
      cases hl : s.inflight.lookup k2 with
      | some op2 => exact h
      | none =>
        by_cases hkk : k = k2
        · subst hkk
          rw [h] at hl
          cases hl
        · rw [List.lookup]
          rw [beq_eq_false_iff_ne.mpr hkk]
          exact h
    | settle k2 ok =>
      by_cases hkk : k2 = k
      · subst hkk
        exact absurd rfl (hne ok)
      · simp only [coStep]
        rw [lookup_filter_ne k k2 _ (fun hc => hkk hc.symm)]
        exact h
  · intro s c1 c2 k op results h hne
    have h12 : (c1 == c2) = false := beq_eq_false_iff_ne.mpr hne
    simp [coStep, h, resultOf, List.lookup, h12]
  · intro s k ok
    exact ⟨lookup_filter_self k _, rfl⟩
  · intro cfg path h t1 t2 cb1 cb2 ttl1 ttl2 n1 n2
    rfl

/-- Witness for C4 at a concrete trace: caller 0 registers operation 0
for key `K`; callers 1 and 2 arriving while it is pending join it, see
its result, and start no new operation; settling removes the entry. -/
theorem c4_witness :
    (keyCount "K" (coRun [.arrive 0 "K", .arrive 1 "K"]) ≤ 1) ∧
    ((coStep (coStep (coRun [.arrive 0 "K"]) (.arrive 1 "K"))
        (.arrive 2 "K")).started = (coRun [.arrive 0 "K"]).started ∧
      resultOf (fun _ => 42)
        (coStep (coStep (coRun [.arrive 0 "K"]) (.arrive 1 "K"))
          (.arrive 2 "K")) 1 = some 42 ∧
      resultOf (fun _ => 42)
        (coStep (coStep (coRun [.arrive 0 "K"]) (.arrive 1 "K"))
          (.arrive 2 "K")) 2 = some 42) ∧
    ((coStep (coRun [.arrive 0 "K"]) (.settle "K" false)).inflight.lookup
        "K" = none) :=
  ⟨c4_coalescing.1 [.arrive 0 "K", .arrive 1 "K"] "K",
   by
    have h := c4_coalescing.2.2.2.1 (coRun [.arrive 0 "K"]) 1 2 "K" 0
      (fun _ => 42) (by decide) (by decide)
    exact ⟨h.2.2.1, h.1, h.2.1⟩,
   (c4_coalescing.2.2.2.2.1 (coRun [.arrive 0 "K"]) "K" false).1⟩

end Hydrator
